import Mathlib

/-!
Verification of the battery status module (src/src/modules/battery.cpp).

The module observes two files (adapter status and battery capacity),
derives a normalized charge state and percentage, rewrites per-state
tokenized labels, and runs a background animation loop that broadcasts
re-render requests while charging.

Modelling conventions:
- File contents are passed to `onEvent` as explicit `String` arguments;
  the file-reading utility itself is out of scope (the spec treats it as
  an external collaborator).
- C `float`/`double` arithmetic is modelled over exact rationals.  The
  only floating-point operations in the pipeline are a clamp, an
  int cast, and an addition of 0.5 on small decimal values, where float
  rounding does not change the truncated integer result.
- Missing null-pointer dereferences are modelled by `Option`: a call of
  `onEvent` that would dereference a null label yields `none`.
- The charge-state integer constants live in the module header (not in
  src/); only equality comparisons on them occur, so they are modelled
  as a closed enumeration.
-/

namespace Battery

/-- Charge state: the four STATE_* integer constants of BatteryModule.
Only equality tests on them appear in the source, so an enumeration is a
faithful model. -/
inductive ChargeState where
  | unknown
  | charging
  | discharging
  | full
deriving DecidableEq, Repr

/-- A drawtypes label: only its text participates in this module's logic. -/
structure Label where
  text : String
deriving DecidableEq, Repr

/-- The BatteryModule fields that the claims touch.  `full_at` comes from
config (default 100); `state`/`percentage` form the published snapshot;
the three `label_*` fields are the (possibly null) templates created at
construction; the `*_tokenized` fields are their working copies, null
until the first successful sample. -/
structure Module where
  battery : String
  adapter : String
  full_at : Int
  state : ChargeState
  percentage : Int
  label_charging : Option Label
  label_discharging : Option Label
  label_full : Option Label
  label_charging_tokenized : Option Label
  label_discharging_tokenized : Option Label
  label_full_tokenized : Option Label
deriving DecidableEq, Repr

/-- math::cap<float>(value, 0, 100): clamp into [0, 100].
Modelled from the spec: the clamping utility lives in utils/math.hpp,
which is not under src/; the spec describes it as clamping the parsed
capacity value into [0,100]. -/
def capQ (v : ℚ) : ℚ :=
  if v < 0 then 0 else if v > 100 then 100 else v

/-- C float-to-int conversion: truncation toward zero. -/
def truncQ (v : ℚ) : ℤ :=
  if 0 ≤ v then ⌊v⌋ else ⌈v⌉

/-- Line 117: `int percentage = (int) math::cap<float>(atof(...), 0, 100) + 0.5;`.
The cast binds to the call, so the truncated value is computed first,
then 0.5 is added and the resulting double is truncated again on
assignment. -/
def percentageOf (v : ℚ) : ℤ :=
  truncQ ((truncQ (capQ v) : ℚ) + 1 / 2)

/-- Digits of the integer part, accumulated left to right (stops at the
first non-digit, like atof). Returns the value and the remaining input. -/
def parseIntPart : List Char → Nat → Nat × List Char
  | [], acc => (acc, [])
  | c :: cs, acc =>
    if c.isDigit then parseIntPart cs (acc * 10 + (c.toNat - 48))
    else (acc, c :: cs)

/-- Digits of the fractional part: each digit contributes digit·scale,
scale shrinking by 10 per position (stops at the first non-digit). -/
def parseFracPart : List Char → ℚ → ℚ → ℚ
  | [], _, acc => acc
  | c :: cs, scale, acc =>
    if c.isDigit then parseFracPart cs (scale / 10) (acc + scale * ((c.toNat : ℚ) - 48))
    else acc

/-- std::atof on the capacity file content: skip leading whitespace, an
optional sign, decimal digits, an optional fraction; anything after the
number is ignored and a content with no leading number parses to 0.
(Exponent and hex forms of atof are not modelled; capacity files hold
plain decimal numerals.) -/
def parseDecimal (s : String) : ℚ :=
  let cs := s.data.dropWhile fun c => c = ' ' ∨ c = '\t' ∨ c = '\n' ∨ c = '\r'
  let signed : Bool × List Char :=
    match cs with
    | '-' :: rest => (true, rest)
    | '+' :: rest => (false, rest)
    | _ => (false, cs)
  let ip := parseIntPart signed.2 0
  let fp : ℚ :=
    match ip.2 with
    | '.' :: rest => parseFracPart rest (1 / 10) 0
    | _ => 0
  let v : ℚ := (ip.1 : ℚ) + fp
  if signed.1 then -v else v

/-- Lines 119-122: the switch on the leading status byte.  The local
state starts at STATE_UNKNOWN and only '0'/'1' change it. -/
def rawStateOf (c : Char) : ChargeState :=
  if c = '0' then .discharging
  else if c = '1' then .charging
  else .unknown

/-- Lines 124-125: a charging battery at or above the full_at threshold
is forced to 100 percent. -/
def normPercentage (fullAt : Int) (st : ChargeState) (p : Int) : Int :=
  if st = .charging ∧ p ≥ fullAt then 100 else p

/-- Lines 127-128: a percentage of exactly 100 forces the FULL state,
whatever the raw status byte said. -/
def normState (st : ChargeState) (p : Int) : ChargeState :=
  if p = 100 then .full else st

/-- Whether `pat` is an initial segment of `cs`. -/
def startsWithPat : List Char → List Char → Bool
  | [], _ => true
  | _ :: _, [] => false
  | p :: ps, c :: cs => p = c && startsWithPat ps cs

/-- Fuelled worker for `replaceAll`; the fuel (the input length) is
enough to process the whole input for a non-empty pattern. -/
def replaceAllAux : Nat → List Char → List Char → List Char → List Char
  | 0, cs, _, _ => cs
  | _ + 1, [], _, _ => []
  | fuel + 1, c :: rest, pat, rep =>
    if startsWithPat pat (c :: rest) then
      rep ++ replaceAllAux fuel ((c :: rest).drop pat.length) pat rep
    else
      c :: replaceAllAux fuel rest pat rep

/-- Label::replace_token.  Modelled from the spec: the drawtypes label
type is not under src/; the spec says the tokenized copy has the
`%percentage%` placeholder replaced by the formatted percentage text. -/
def replaceAll (s pat rep : String) : String :=
  ⟨replaceAllAux s.data.length s.data pat.data rep.data⟩

/-- The text written into every tokenized label on a successful sample:
`std::to_string(percentage) + "%"`. -/
def percentText (p : Int) : String :=
  toString p ++ "%"

/-- BatteryModule::on_event (lines 94-150), with the two file contents
as explicit inputs.  `some (false, m)` is the early-return failure on an
empty read (module untouched); `some (true, m')` is a successful sample;
`none` models the null dereference of a missing label template (lines
130-144 dereference all three templates unconditionally). -/
def onEvent (m : Module) (status capacity : String) : Option (Bool × Module) :=
  if status.isEmpty then some (false, m)
  else if capacity.isEmpty then some (false, m)
  else
    match m.label_charging, m.label_discharging, m.label_full with
    | some lc, some ld, some lf =>
      let p0 := percentageOf (parseDecimal capacity)
      let st0 := rawStateOf status.front
      let p1 := normPercentage m.full_at st0 p0
      let st1 := normState st0 p1
      let ptxt := percentText p1
      some (true,
        { m with
          state := st1
          percentage := p1
          label_charging_tokenized := some ⟨replaceAll lc.text "%percentage%" ptxt⟩
          label_discharging_tokenized := some ⟨replaceAll ld.text "%percentage%" ptxt⟩
          label_full_tokenized := some ⟨replaceAll lf.text "%percentage%" ptxt⟩ })
    | _, _, _ => none

/-- Observable events of the two threads: lock operations on
`broadcast_lock`, the coordinator's read of the snapshot state, its
broadcast and sleeps, the sampler's error logging and its writes of the
snapshot fields.  `readState`/`broadcast` record the state value
observed by the coordinator; `sleepFrame` records the sleep length in
seconds. -/
inductive Ev where
  | lockAcquire
  | lockRelease
  | readState (s : ChargeState)
  | broadcast (s : ChargeState)
  | logNotCharging
  | logError
  | sleepFrame (secs : ℚ)
  | sleepCooldown
  | writeState (s : ChargeState)
  | writePercentage (p : Int)
deriving DecidableEq, Repr

/-- The events emitted by one `on_event` call: an error log on either
empty read (lines 105-115), else the two snapshot writes of lines
146-147.  No lock is acquired anywhere in `on_event`. -/
def onEventTrace (m : Module) (status capacity : String) : List Ev :=
  if status.isEmpty then [Ev.logError]
  else if capacity.isEmpty then [Ev.logError]
  else
    match m.label_charging, m.label_discharging, m.label_full with
    | some _, some _, some _ =>
      let p0 := percentageOf (parseDecimal capacity)
      let st0 := rawStateOf status.front
      let p1 := normPercentage m.full_at st0 p0
      let st1 := normState st0 p1
      [Ev.writeState st1, Ev.writePercentage p1]
    | _, _, _ => []

/-- Line 67-68: the per-tick sleep, in seconds:
`chrono::duration<double>(float(framerate) / 1000.0f)`. -/
def animationDur (framerate : ℚ) : ℚ :=
  framerate / 1000

/-- One pass of the inner loop body (lines 75-87): acquire the spin
lock, read the state; while charging, unlock first and then broadcast;
otherwise log and keep the lock across the sleep (the `unique_lock`
only leaves scope at the end of the loop body). -/
def iterEvents (fr : ℚ) (s : ChargeState) : List Ev :=
  [Ev.lockAcquire, Ev.readState s] ++
    (if s = ChargeState.charging then
      [Ev.lockRelease, Ev.broadcast s, Ev.sleepFrame (animationDur fr)]
    else
      [Ev.logNotCharging, Ev.sleepFrame (animationDur fr), Ev.lockRelease])

/-- The inner `while (this->enabled())` loop (lines 74-88), driven by a
schedule of polls: `some s` means `enabled()` returned true and the
subsequent locked read observed state `s`; `none` means `enabled()`
returned false, ending the inner loop.  Returns the retry counter (the
first iteration collapses any remaining budget to zero, line 77-78),
the emitted events, and the unconsumed schedule. -/
def innerLoop (fr : ℚ) : Nat → List (Option ChargeState) →
    Nat × List Ev × List (Option ChargeState)
  | retries, [] => (retries, [], [])
  | retries, none :: rest => (retries, [], rest)
  | retries, some s :: rest =>
    let retries' := if retries > 0 then 0 else retries
    let t := innerLoop fr retries' rest
    (t.1, iterEvents fr s ++ t.2.1, t.2.2)

/-- The outer retry loop `while (retries-- > 0)` (lines 70-91): the
counter starts at 5, is tested and post-decremented, the inner loop
runs, and a 500 ms cool-down sleep follows each pass.  The counter is
a Nat: it is only decremented after a positive test, and its final
wrap to -1 in the failing test is unobservable. -/
def outerLoop (fr : ℚ) : Nat → List (Option ChargeState) → List Ev
  | 0, _ => []
  | r + 1, sched =>
    let t := innerLoop fr r sched
    t.2.1 ++ Ev.sleepCooldown :: outerLoop fr t.1 t.2.2
termination_by r sched => sched.length + r
decreasing_by
  simp_wf
  have h : ∀ (s : List (Option ChargeState)) (n : Nat),
      (innerLoop fr n s).2.2.length + (innerLoop fr n s).1 ≤ s.length + n := by
    intro s
    induction s with
    | nil => intro n; simp [innerLoop]
    | cons hd tl ih =>
      intro n
      cases hd with
      | none => simp [innerLoop]
      | some st =>
        simp only [innerLoop]
        have h1 := ih (if n > 0 then 0 else n)
        have h2 : (if n > 0 then 0 else n) ≤ n := by split <;> omega
        simp only [List.length_cons]
        omega
  have h3 := h sched r
  omega

/-- BatteryModule::animation_thread_runner with its initial retry
budget of 5 (line 70). -/
def runnerTrace (fr : ℚ) (sched : List (Option ChargeState)) : List Ev :=
  outerLoop fr 5 sched

/-- Whether, starting from lock state `held`, every `readState` event
of the trace happens while the spin lock is held. -/
def readsLocked : Bool → List Ev → Bool
  | _, [] => true
  | _, Ev.lockAcquire :: rest => readsLocked true rest
  | _, Ev.lockRelease :: rest => readsLocked false rest
  | held, Ev.readState _ :: rest => held && readsLocked held rest
  | held, e :: rest =>
    let _ := e
    readsLocked held rest

/-- Whether, starting from lock state `held`, every snapshot write of
the trace happens while the spin lock is held. -/
def writesLocked : Bool → List Ev → Bool
  | _, [] => true
  | _, Ev.lockAcquire :: rest => writesLocked true rest
  | _, Ev.lockRelease :: rest => writesLocked false rest
  | held, Ev.writeState _ :: rest => held && writesLocked held rest
  | held, Ev.writePercentage _ :: rest => held && writesLocked held rest
  | held, e :: rest =>
    let _ := e
    writesLocked held rest

/-- The lock state after processing a trace from lock state `held`. -/
def lockStateAfter : Bool → List Ev → Bool
  | held, [] => held
  | _, Ev.lockAcquire :: rest => lockStateAfter true rest
  | _, Ev.lockRelease :: rest => lockStateAfter false rest
  | held, e :: rest =>
    let _ := e
    lockStateAfter held rest

/-- Modelled from the spec: the three format identifiers are distinct
string constants declared in the module header, which is not under
src/; only their selection matters here. -/
def FORMAT_CHARGING : String := "format:charging"

/-- Modelled from the spec: see FORMAT_CHARGING. -/
def FORMAT_DISCHARGING : String := "format:discharging"

/-- Modelled from the spec: see FORMAT_CHARGING. -/
def FORMAT_FULL : String := "format:full"

/-- BatteryModule::get_format (lines 152-162). -/
def get_format (m : Module) : String :=
  if m.state = ChargeState.full then FORMAT_FULL
  else if m.state = ChargeState.charging then FORMAT_CHARGING
  else FORMAT_DISCHARGING

/-- Round-half-up of the clamped value, written from the spec sentence
"Percentage = round(clamp(parsed capacity value, 0, 100)) using
round-half-up on the fractional remainder", for comparison with the
source's `percentageOf`. -/
def roundHalfUpSpec (v : ℚ) : ℤ :=
  ⌊v + 1 / 2⌋

/-- The percentage published by a successful sample (lines 117-125):
the truncated clamp of the parsed capacity, then the full_at forcing. -/
def sampledPercentage (m : Module) (status capacity : String) : Int :=
  normPercentage m.full_at (rawStateOf status.front) (percentageOf (parseDecimal capacity))

/-- The state published by a successful sample (lines 119-128). -/
def sampledState (m : Module) (status capacity : String) : ChargeState :=
  normState (rawStateOf status.front) (sampledPercentage m status capacity)

/-- The tokenized copy a successful sample writes for one template. -/
def tokenizedFrom (tpl : Option Label) (p : Int) : Option Label :=
  tpl.map fun l => ⟨replaceAll l.text "%percentage%" (percentText p)⟩

/-- A module as constructed with every label tag configured (templates
present, tokenized copies still null) and the given full_at. -/
def baseModule (fullAt : Int) : Module :=
  { battery := "BAT0"
    adapter := "ADP1"
    full_at := fullAt
    state := ChargeState.unknown
    percentage := 0
    label_charging := some ⟨"%percentage%"⟩
    label_discharging := some ⟨"%percentage%"⟩
    label_full := some ⟨"%percentage%"⟩
    label_charging_tokenized := none
    label_discharging_tokenized := none
    label_full_tokenized := none }

/-- The module state after a successful sample of a `baseModule`: all
three templates are the bare placeholder, so every tokenized label
becomes exactly the percentage text. -/
def sampledBase (fullAt p : Int) (st : ChargeState) : Module :=
  { baseModule fullAt with
    state := st
    percentage := p
    label_charging_tokenized := some ⟨percentText p⟩
    label_discharging_tokenized := some ⟨percentText p⟩
    label_full_tokenized := some ⟨percentText p⟩ }

theorem capQ_nonneg (v : ℚ) : 0 ≤ capQ v := by
  unfold capQ; split_ifs <;> linarith

theorem capQ_le_100 (v : ℚ) : capQ v ≤ 100 := by
  unfold capQ; split_ifs <;> linarith

theorem capQ_mono {v w : ℚ} (h : v ≤ w) : capQ v ≤ capQ w := by
  unfold capQ; split_ifs <;> linarith

theorem truncQ_of_nonneg {v : ℚ} (h : 0 ≤ v) : truncQ v = ⌊v⌋ := by
  simp [truncQ, h]

/-- The truncated clamp pipeline of line 117 equals the floor of the
clamp: the added 0.5 is dead, it is truncated away again because the
int cast was already applied to the clamped value. -/
theorem percentageOf_eq_floor (v : ℚ) : percentageOf v = ⌊capQ v⌋ := by
  unfold percentageOf
  rw [truncQ_of_nonneg (capQ_nonneg v)]
  have hfl : (0 : ℤ) ≤ ⌊capQ v⌋ := Int.floor_nonneg.mpr (capQ_nonneg v)
  have h0 : (0 : ℚ) ≤ (⌊capQ v⌋ : ℚ) + 1 / 2 := by
    have : (0 : ℚ) ≤ (⌊capQ v⌋ : ℚ) := by exact_mod_cast hfl
    linarith
  rw [truncQ_of_nonneg h0, Int.floor_int_add]
  norm_num

theorem percentageOf_nonneg (v : ℚ) : 0 ≤ percentageOf v := by
  rw [percentageOf_eq_floor]
  exact Int.floor_nonneg.mpr (capQ_nonneg v)

theorem percentageOf_le_100 (v : ℚ) : percentageOf v ≤ 100 := by
  rw [percentageOf_eq_floor]
  have h := Int.floor_le_floor (α := ℚ) (capQ_le_100 v)
  simpa using h

theorem percentageOf_mono {v w : ℚ} (h : v ≤ w) : percentageOf v ≤ percentageOf w := by
  rw [percentageOf_eq_floor, percentageOf_eq_floor]
  exact Int.floor_le_floor (capQ_mono h)

/-- A successful `on_event` implies both reads were non-empty and all
three templates non-null, and fully determines the resulting module:
the published snapshot and the three rewritten tokenized labels. -/
theorem onEvent_success_spec (m : Module) (s c : String) (m' : Module)
    (h : onEvent m s c = some (true, m')) :
    s.isEmpty = false ∧ c.isEmpty = false ∧
    m.label_charging.isSome = true ∧ m.label_discharging.isSome = true ∧
    m.label_full.isSome = true ∧
    m' = { m with
      state := sampledState m s c
      percentage := sampledPercentage m s c
      label_charging_tokenized := tokenizedFrom m.label_charging (sampledPercentage m s c)
      label_discharging_tokenized := tokenizedFrom m.label_discharging (sampledPercentage m s c)
      label_full_tokenized := tokenizedFrom m.label_full (sampledPercentage m s c) } := by
  by_cases hs : s.isEmpty = true
  · simp [onEvent, hs] at h
  by_cases hc : c.isEmpty = true
  · simp [onEvent, hs, hc] at h
  rcases hlc : m.label_charging with _ | lc
  · simp [onEvent, hs, hc, hlc] at h
  rcases hld : m.label_discharging with _ | ld
  · simp [onEvent, hs, hc, hlc, hld] at h
  rcases hlf : m.label_full with _ | lf
  · simp [onEvent, hs, hc, hlc, hld, hlf] at h
  simp [onEvent, hs, hc, hlc, hld, hlf] at h
  refine ⟨by simpa using hs, by simpa using hc, by simp [hlc], by simp [hld], by simp [hlf], ?_⟩
  rw [← h]
  simp [sampledState, sampledPercentage, tokenizedFrom, hlc, hld, hlf]

theorem normPercentage_nonneg (fa : Int) (st : ChargeState) {p : Int} (h : 0 ≤ p) :
    0 ≤ normPercentage fa st p := by
  unfold normPercentage; split <;> omega

theorem normPercentage_le_100 (fa : Int) (st : ChargeState) {p : Int} (h : p ≤ 100) :
    normPercentage fa st p ≤ 100 := by
  unfold normPercentage; split <;> omega

theorem normPercentage_mono (fa : Int) (st : ChargeState) {v w : ℚ} (h : v ≤ w) :
    normPercentage fa st (percentageOf v) ≤ normPercentage fa st (percentageOf w) := by
  have hm := percentageOf_mono h
  have hw := percentageOf_le_100 w
  have hv := percentageOf_le_100 v
  unfold normPercentage
  split_ifs with h1 h2 h3
  · omega
  · exact absurd ⟨h1.1, le_trans h1.2 hm⟩ h2
  · omega
  · omega

theorem parse_996 : parseDecimal "99.6" = 996 / 10 := by
  simp +decide [parseDecimal, parseIntPart, parseFracPart]; norm_num

theorem pct_996 : percentageOf (parseDecimal "99.6") = 99 := by
  rw [parse_996]; norm_num [percentageOf, capQ, truncQ]

theorem rhu_996 : roundHalfUpSpec (capQ (parseDecimal "99.6")) = 100 := by
  rw [parse_996]; norm_num [roundHalfUpSpec, capQ]

theorem parse_87 : parseDecimal "87" = 87 := by
  simp +decide [parseDecimal, parseIntPart, parseFracPart]

theorem pct_87 : percentageOf (parseDecimal "87") = 87 := by
  rw [parse_87]; norm_num [percentageOf, capQ, truncQ]

theorem parse_100 : parseDecimal "100" = 100 := by
  simp +decide [parseDecimal, parseIntPart, parseFracPart]

theorem pct_100 : percentageOf (parseDecimal "100") = 100 := by
  rw [parse_100]; norm_num [percentageOf, capQ, truncQ]

theorem parse_50 : parseDecimal "50" = 50 := by
  simp +decide [parseDecimal, parseIntPart, parseFracPart]

theorem pct_50 : percentageOf (parseDecimal "50") = 50 := by
  rw [parse_50]; norm_num [percentageOf, capQ, truncQ]

theorem parse_40 : parseDecimal "40" = 40 := by
  simp +decide [parseDecimal, parseIntPart, parseFracPart]

theorem pct_40 : percentageOf (parseDecimal "40") = 40 := by
  rw [parse_40]; norm_num [percentageOf, capQ, truncQ]

theorem parse_60 : parseDecimal "60" = 60 := by
  simp +decide [parseDecimal, parseIntPart, parseFracPart]

theorem pct_60 : percentageOf (parseDecimal "60") = 60 := by
  rw [parse_60]; norm_num [percentageOf, capQ, truncQ]

theorem c1_eval : onEvent (baseModule 100) "1" "99.6" =
    some (true, sampledBase 100 99 ChargeState.charging) := by
  simp +decide [onEvent, baseModule, sampledBase, pct_996, rawStateOf,
    normPercentage, normState, percentText]

theorem c2_eval : onEvent (baseModule 95) "1" "99.6" =
    some (true, sampledBase 95 100 ChargeState.full) := by
  simp +decide [onEvent, baseModule, sampledBase, pct_996, rawStateOf,
    normPercentage, normState, percentText]

theorem c2_ge : (baseModule 95).full_at ≤ percentageOf (parseDecimal "99.6") := by
  rw [pct_996]; simp [baseModule]

theorem c7_eval40 : onEvent (baseModule 100) "1" "40" =
    some (true, sampledBase 100 40 ChargeState.charging) := by
  simp +decide [onEvent, baseModule, sampledBase, pct_40, rawStateOf,
    normPercentage, normState, percentText]

theorem c7_eval60 : onEvent (baseModule 100) "1" "60" =
    some (true, sampledBase 100 60 ChargeState.charging) := by
  simp +decide [onEvent, baseModule, sampledBase, pct_60, rawStateOf,
    normPercentage, normState, percentText]

theorem c7_le : parseDecimal "40" ≤ parseDecimal "60" := by
  rw [parse_40, parse_60]; norm_num

theorem c8_eval : onEvent (baseModule 100) "1" "87" =
    some (true, sampledBase 100 87 ChargeState.charging) := by
  simp +decide [onEvent, baseModule, sampledBase, pct_87, rawStateOf,
    normPercentage, normState, percentText]

theorem c8_eval2 : onEvent (sampledBase 100 87 ChargeState.charging) "1" "87" =
    some (true, sampledBase 100 87 ChargeState.charging) := by
  simp +decide [onEvent, baseModule, sampledBase, pct_87, rawStateOf,
    normPercentage, normState, percentText]

theorem c9_eval : onEvent (baseModule 100) "2" "50" =
    some (true, sampledBase 100 50 ChargeState.unknown) := by
  simp +decide [onEvent, baseModule, sampledBase, pct_50, rawStateOf,
    normPercentage, normState, percentText]

theorem c9_pct : (sampledBase 100 50 ChargeState.unknown).percentage ≠ 100 := by
  simp [sampledBase, baseModule]

theorem mem_iter_broadcast {fr : ℚ} {s x : ChargeState}
    (h : Ev.broadcast x ∈ iterEvents fr s) : s = ChargeState.charging ∧ x = s := by
  by_cases hc : s = ChargeState.charging
  · simp [iterEvents, hc] at h
    simp [hc, h]
  · simp [iterEvents, hc] at h

theorem mem_iter_sleep {fr q : ℚ} {s : ChargeState}
    (h : Ev.sleepFrame q ∈ iterEvents fr s) : q = animationDur fr := by
  by_cases hc : s = ChargeState.charging <;> simp [iterEvents, hc] at h <;> exact h

theorem mem_inner_broadcast {fr : ℚ} {x : ChargeState} :
    ∀ (r : Nat) (sched : List (Option ChargeState)),
      Ev.broadcast x ∈ (innerLoop fr r sched).2.1 → x = ChargeState.charging := by
  intro r sched
  induction sched generalizing r with
  | nil => simp [innerLoop]
  | cons hd tl ih =>
    cases hd with
    | none => simp [innerLoop]
    | some s =>
      simp only [innerLoop, List.mem_append]
      rintro (h | h)
      · obtain ⟨hs, hx⟩ := mem_iter_broadcast h
        rw [hx, hs]
      · exact ih _ h

theorem mem_outer_broadcast {fr : ℚ} {x : ChargeState} :
    ∀ (r : Nat) (sched : List (Option ChargeState)),
      Ev.broadcast x ∈ outerLoop fr r sched → x = ChargeState.charging := by
  intro r sched
  induction r, sched using outerLoop.induct fr with
  | case1 sched => simp [outerLoop]
  | case2 r sched t ih =>
    rw [outerLoop]
    simp only [List.mem_append, List.mem_cons]
    rintro (h | h | h)
    · exact mem_inner_broadcast _ _ h
    · simp at h
    · exact ih h

theorem mem_inner_sleep {fr q : ℚ} :
    ∀ (r : Nat) (sched : List (Option ChargeState)),
      Ev.sleepFrame q ∈ (innerLoop fr r sched).2.1 → q = animationDur fr := by
  intro r sched
  induction sched generalizing r with
  | nil => simp [innerLoop]
  | cons hd tl ih =>
    cases hd with
    | none => simp [innerLoop]
    | some s =>
      simp only [innerLoop, List.mem_append]
      rintro (h | h)
      · exact mem_iter_sleep h
      · exact ih _ h

theorem mem_outer_sleep {fr q : ℚ} :
    ∀ (r : Nat) (sched : List (Option ChargeState)),
      Ev.sleepFrame q ∈ outerLoop fr r sched → q = animationDur fr := by
  intro r sched
  induction r, sched using outerLoop.induct fr with
  | case1 sched => simp [outerLoop]
  | case2 r sched t ih =>
    rw [outerLoop]
    simp only [List.mem_append, List.mem_cons]
    rintro (h | h | h)
    · exact mem_inner_sleep _ _ h
    · simp at h
    · exact ih h

theorem readsLocked_append (xs : List Ev) :
    ∀ (ys : List Ev) (h : Bool),
      readsLocked h (xs ++ ys) =
        (readsLocked h xs && readsLocked (lockStateAfter h xs) ys) := by
  induction xs with
  | nil => intro ys h; simp [readsLocked, lockStateAfter]
  | cons e rest ih =>
    intro ys h
    cases e <;> simp [readsLocked, lockStateAfter, ih, Bool.and_assoc]

theorem lockStateAfter_append (xs : List Ev) :
    ∀ (ys : List Ev) (h : Bool),
      lockStateAfter h (xs ++ ys) = lockStateAfter (lockStateAfter h xs) ys := by
  induction xs with
  | nil => intro ys h; simp [lockStateAfter]
  | cons e rest ih =>
    intro ys h
    cases e <;> simp [lockStateAfter, ih]

theorem iter_readsLocked (fr : ℚ) (s : ChargeState) (h : Bool) :
    readsLocked h (iterEvents fr s) = true := by
  by_cases hc : s = ChargeState.charging <;> simp [iterEvents, hc, readsLocked]

theorem iter_lockStateAfter (fr : ℚ) (s : ChargeState) (h : Bool) :
    lockStateAfter h (iterEvents fr s) = false := by
  by_cases hc : s = ChargeState.charging <;> simp [iterEvents, hc, lockStateAfter]

theorem inner_readsLocked (fr : ℚ) :
    ∀ (r : Nat) (sched : List (Option ChargeState)),
      readsLocked false (innerLoop fr r sched).2.1 = true ∧
      lockStateAfter false (innerLoop fr r sched).2.1 = false := by
  intro r sched
  induction sched generalizing r with
  | nil => simp [innerLoop, readsLocked, lockStateAfter]
  | cons hd tl ih =>
    cases hd with
    | none => simp [innerLoop, readsLocked, lockStateAfter]
    | some s =>
      simp only [innerLoop]
      rw [readsLocked_append, lockStateAfter_append]
      simp [iter_readsLocked, iter_lockStateAfter, (ih _).1, (ih _).2]

theorem outer_readsLocked (fr : ℚ) :
    ∀ (r : Nat) (sched : List (Option ChargeState)),
      readsLocked false (outerLoop fr r sched) = true ∧
      lockStateAfter false (outerLoop fr r sched) = false := by
  intro r sched
  induction r, sched using outerLoop.induct fr with
  | case1 sched => simp [outerLoop, readsLocked, lockStateAfter]
  | case2 r sched t ih =>
    rw [outerLoop, readsLocked_append, lockStateAfter_append]
    have h1 := (inner_readsLocked fr r sched).1
    have h2 := (inner_readsLocked fr r sched).2
    simp only [readsLocked, lockStateAfter] at *
    simp [h1, h2, ih.1, ih.2, readsLocked, lockStateAfter]

theorem c4_mem : Ev.broadcast ChargeState.charging ∈
    outerLoop 300 5 [some ChargeState.charging, none] := by
  show Ev.broadcast ChargeState.charging ∈
    outerLoop 300 (4 + 1) [some ChargeState.charging, none]
  rw [outerLoop]
  simp [innerLoop, iterEvents]

theorem c6_mem : Ev.sleepFrame ((500 : ℚ) / 1000) ∈
    outerLoop 500 5 [some ChargeState.charging, none] := by
  show Ev.sleepFrame ((500 : ℚ) / 1000) ∈
    outerLoop 500 (4 + 1) [some ChargeState.charging, none]
  rw [outerLoop]
  simp [innerLoop, iterEvents, animationDur]

/-- C1: the spec claims the published percentage is the round-half-up
of the clamped parsed capacity (99.6 rounding to 100); the code instead
truncates, because the int cast binds to the clamp call and the added
0.5 is dead.  At capacity content "99.6" the code publishes 99 while
the round-half-up of the clamped parse is 100. -/
theorem claim1_thm :
    onEvent (baseModule 100) "1" "99.6" =
      some (true, sampledBase 100 99 ChargeState.charging) ∧
    (sampledBase 100 99 ChargeState.charging).percentage = 99 ∧
    roundHalfUpSpec (capQ (parseDecimal "99.6")) = 100 :=
  ⟨c1_eval, by simp [sampledBase, baseModule], rhu_996⟩

/-- C2: on every successful sample, a raw CHARGING state with a
pre-normalization percentage at or above full_at forces the published
percentage to 100 and the state to FULL; and whenever the published
percentage is 100 the published state is FULL, whatever the raw status
byte was. -/
theorem claim2_thm (m : Module) (s c : String) (m' : Module)
    (h : onEvent m s c = some (true, m')) :
    ((rawStateOf s.front = ChargeState.charging ∧
        m.full_at ≤ percentageOf (parseDecimal c)) →
      m'.percentage = 100 ∧ m'.state = ChargeState.full) ∧
    (m'.percentage = 100 → m'.state = ChargeState.full) := by
  obtain ⟨-, -, -, -, -, hm'⟩ := onEvent_success_spec m s c m' h
  subst hm'
  constructor
  · rintro ⟨hraw, hge⟩
    have hp : sampledPercentage m s c = 100 := by
      simp [sampledPercentage, normPercentage, hraw, hge]
    refine ⟨by simpa using hp, ?_⟩
    simp [sampledState, hp, normState]
  · intro hp
    simp only [Module.percentage] at hp
    simp [sampledState, normState, hp]

/-- C2 witness: charging at parsed 99.6 with full_at 95 publishes
percentage 100 and state FULL. -/
theorem claim2_witness :
    (sampledBase 95 100 ChargeState.full).percentage = 100 ∧
    (sampledBase 95 100 ChargeState.full).state = ChargeState.full :=
  (claim2_thm (baseModule 95) "1" "99.6" (sampledBase 95 100 ChargeState.full) c2_eval).1
    ⟨by decide, c2_ge⟩

/-- C3: an empty status or capacity read makes on_event return false
after logging an error, leaving the whole module (snapshot and all
tokenized labels) exactly as it was. -/
theorem claim3_thm (m : Module) (s c : String)
    (h : s.isEmpty = true ∨ c.isEmpty = true) :
    onEvent m s c = some (false, m) ∧ onEventTrace m s c = [Ev.logError] := by
  rcases h with h | h
  · constructor <;> simp [onEvent, onEventTrace, h]
  · by_cases hs : s.isEmpty = true
    · constructor <;> simp [onEvent, onEventTrace, hs]
    · constructor <;> simp [onEvent, onEventTrace, hs, h]

/-- C3 witness: an empty status read fails and changes nothing. -/
theorem claim3_witness :
    onEvent (baseModule 100) "" "50" = some (false, baseModule 100) ∧
    onEventTrace (baseModule 100) "" "50" = [Ev.logError] :=
  claim3_thm (baseModule 100) "" "50" (Or.inl (by decide))

/-- C4: in every execution of the coordinator loop, a broadcast is
emitted only from an iteration whose locked read observed CHARGING;
no broadcast carries UNKNOWN, DISCHARGING or FULL. -/
theorem claim4_thm (fr : ℚ) (r : Nat) (sched : List (Option ChargeState)) (s : ChargeState)
    (h : Ev.broadcast s ∈ outerLoop fr r sched) : s = ChargeState.charging :=
  mem_outer_broadcast r sched h

/-- C4 witness: a schedule observing CHARGING once does broadcast, and
that broadcast observed CHARGING. -/
theorem claim4_witness : ChargeState.charging = ChargeState.charging :=
  claim4_thm 300 5 [some ChargeState.charging, none] ChargeState.charging c4_mem

/-- C5 as amended: the gate protects only the coordinator side.  Every
coordinator read of the snapshot state happens with broadcast_lock
held, but on_event never touches the lock at all, so its publish step
runs unguarded. -/
theorem claim5_thm :
    (∀ (fr : ℚ) (r : Nat) (sched : List (Option ChargeState)),
      readsLocked false (outerLoop fr r sched) = true) ∧
    (∀ (m : Module) (s c : String),
      Ev.lockAcquire ∉ onEventTrace m s c ∧ Ev.lockRelease ∉ onEventTrace m s c) := by
  constructor
  · intro fr r sched
    exact (outer_readsLocked fr r sched).1
  · intro m s c
    unfold onEventTrace
    split_ifs with hs hc
    · simp
    · simp
    · rcases m.label_charging with _ | lc <;>
        rcases m.label_discharging with _ | ld <;>
          rcases m.label_full with _ | lf <;> simp

/-- C5 counterexample: in a successful sample the snapshot writes of
lines 146-147 happen with the lock not held, refuting the claim that
the sampler publish step holds the gate. -/
theorem claim5_counterexample :
    writesLocked false (onEventTrace (baseModule 100) "1" "50") = false := by
  decide

/-- C5 witness: a concrete coordinator trace keeps every state read
under the lock, and a concrete sampler trace never acquires it. -/
theorem claim5_witness :
    readsLocked false (outerLoop 300 5 [some ChargeState.charging, none]) = true ∧
    Ev.lockAcquire ∉ onEventTrace (baseModule 100) "1" "50" :=
  ⟨claim5_thm.1 300 5 [some ChargeState.charging, none],
    (claim5_thm.2 (baseModule 100) "1" "50").1⟩

/-- C6 as amended: every inner-loop sleep lasts framerate/1000 seconds
(the framerate value is a count of milliseconds), not 1000/framerate
seconds as the spec states. -/
theorem claim6_thm (fr q : ℚ) (r : Nat) (sched : List (Option ChargeState))
    (h : Ev.sleepFrame q ∈ outerLoop fr r sched) : q = fr / 1000 := by
  have hq := mem_outer_sleep r sched h
  rwa [animationDur] at hq

/-- C6 counterexample: at framerate 500 the emitted sleep is 1/2 s, not
the 2 s that 1000/framerate would give. -/
theorem claim6_counterexample :
    Ev.sleepFrame ((1000 : ℚ) / 500) ∉ outerLoop 500 5 [some ChargeState.charging, none] ∧
    Ev.sleepFrame ((500 : ℚ) / 1000) ∈ outerLoop 500 5 [some ChargeState.charging, none] := by
  refine ⟨fun hmem => ?_, c6_mem⟩
  have h := mem_outer_sleep 5 [some ChargeState.charging, none] hmem
  rw [animationDur] at h
  norm_num at h

/-- C6 witness: the sleep emitted at framerate 500 equals 500/1000 s. -/
theorem claim6_witness : (500 : ℚ) / 1000 = 500 / 1000 :=
  claim6_thm 500 ((500 : ℚ) / 1000) 5 [some ChargeState.charging, none] c6_mem

/-- C7: every successfully published percentage lies in [0, 100], and
with the module and status content fixed, the published percentage is
monotone non-decreasing in the parsed capacity value. -/
theorem claim7_thm :
    (∀ (m : Module) (s c : String) (m' : Module), onEvent m s c = some (true, m') →
      0 ≤ m'.percentage ∧ m'.percentage ≤ 100) ∧
    (∀ (m : Module) (s c₁ c₂ : String) (m₁ m₂ : Module),
      onEvent m s c₁ = some (true, m₁) → onEvent m s c₂ = some (true, m₂) →
      parseDecimal c₁ ≤ parseDecimal c₂ → m₁.percentage ≤ m₂.percentage) := by
  constructor
  · intro m s c m' h
    obtain ⟨-, -, -, -, -, hm'⟩ := onEvent_success_spec m s c m' h
    subst hm'
    simp only [Module.percentage, sampledPercentage]
    exact ⟨normPercentage_nonneg _ _ (percentageOf_nonneg _),
      normPercentage_le_100 _ _ (percentageOf_le_100 _)⟩
  · intro m s c₁ c₂ m₁ m₂ h₁ h₂ hle
    obtain ⟨-, -, -, -, -, hm₁⟩ := onEvent_success_spec m s c₁ m₁ h₁
    obtain ⟨-, -, -, -, -, hm₂⟩ := onEvent_success_spec m s c₂ m₂ h₂
    subst hm₁; subst hm₂
    simp only [Module.percentage, sampledPercentage]
    exact normPercentage_mono _ _ hle

/-- C7 witness: capacities 40 and 60 give percentages in range and in
order. -/
theorem claim7_witness :
    (0 ≤ (sampledBase 100 60 ChargeState.charging).percentage ∧
      (sampledBase 100 60 ChargeState.charging).percentage ≤ 100) ∧
    (sampledBase 100 40 ChargeState.charging).percentage ≤
      (sampledBase 100 60 ChargeState.charging).percentage :=
  ⟨claim7_thm.1 (baseModule 100) "1" "60" _ c7_eval60,
    claim7_thm.2 (baseModule 100) "1" "40" "60" _ _ c7_eval40 c7_eval60 c7_le⟩

/-- C8: sampling twice with identical file contents is idempotent: the
second call reproduces the same snapshot and the same tokenized label
texts as the first. -/
theorem claim8_thm (m : Module) (s c : String) (m₁ m₂ : Module)
    (h₁ : onEvent m s c = some (true, m₁)) (h₂ : onEvent m₁ s c = some (true, m₂)) :
    m₂.state = m₁.state ∧ m₂.percentage = m₁.percentage ∧
    m₂.label_charging_tokenized = m₁.label_charging_tokenized ∧
    m₂.label_discharging_tokenized = m₁.label_discharging_tokenized ∧
    m₂.label_full_tokenized = m₁.label_full_tokenized := by
  obtain ⟨-, -, -, -, -, hm₁⟩ := onEvent_success_spec m s c m₁ h₁
  obtain ⟨-, -, -, -, -, hm₂⟩ := onEvent_success_spec m₁ s c m₂ h₂
  subst hm₂; subst hm₁
  simp [sampledPercentage, sampledState, tokenizedFrom]

/-- C8 witness: sampling "1"/"87" twice reproduces the same module. -/
theorem claim8_witness :
    (sampledBase 100 87 ChargeState.charging).state =
      (sampledBase 100 87 ChargeState.charging).state ∧
    (sampledBase 100 87 ChargeState.charging).percentage =
      (sampledBase 100 87 ChargeState.charging).percentage ∧
    (sampledBase 100 87 ChargeState.charging).label_charging_tokenized =
      (sampledBase 100 87 ChargeState.charging).label_charging_tokenized ∧
    (sampledBase 100 87 ChargeState.charging).label_discharging_tokenized =
      (sampledBase 100 87 ChargeState.charging).label_discharging_tokenized ∧
    (sampledBase 100 87 ChargeState.charging).label_full_tokenized =
      (sampledBase 100 87 ChargeState.charging).label_full_tokenized :=
  claim8_thm (baseModule 100) "1" "87" _ _ c8_eval c8_eval2

/-- C9 as amended: get_format is total (FULL to the full format,
CHARGING to the charging format, everything else to the discharging
format); and a sample whose status byte is neither the digit zero nor
the digit one leaves the state UNKNOWN and the format discharging,
provided the published percentage is not 100 (at exactly 100 the FULL
override of line 127 wins). -/
theorem claim9_thm :
    (∀ m : Module,
      (m.state = ChargeState.full → get_format m = FORMAT_FULL) ∧
      (m.state = ChargeState.charging → get_format m = FORMAT_CHARGING) ∧
      (m.state ≠ ChargeState.full → m.state ≠ ChargeState.charging →
        get_format m = FORMAT_DISCHARGING)) ∧
    (∀ (m : Module) (s c : String) (m' : Module), onEvent m s c = some (true, m') →
      s.front ≠ '0' → s.front ≠ '1' → m'.percentage ≠ 100 →
      m'.state = ChargeState.unknown ∧ get_format m' = FORMAT_DISCHARGING) := by
  constructor
  · intro m
    refine ⟨fun h => by simp [get_format, h], fun h => by simp [get_format, h],
      fun h1 h2 => ?_⟩
    simp [get_format, h1, h2]
  · intro m s c m' h h0 h1 hp
    obtain ⟨-, -, -, -, -, hm'⟩ := onEvent_success_spec m s c m' h
    subst hm'
    simp only [Module.percentage] at hp
    have hraw : rawStateOf s.front = ChargeState.unknown := by
      simp [rawStateOf, h0, h1]
    have hst : sampledState m s c = ChargeState.unknown := by
      simp [sampledState, normState, hraw, hp]
    constructor
    · simpa using hst
    · simp [get_format, hst]

/-- C9 counterexample: with status byte a two and capacity 100, the
sample publishes FULL (not UNKNOWN) and get_format selects the full
format (not the discharging one), refuting the unconditional scenario
of the claim. -/
theorem claim9_counterexample :
    onEvent (baseModule 100) "2" "100" = some (true, sampledBase 100 100 ChargeState.full) ∧
    (sampledBase 100 100 ChargeState.full).state = ChargeState.full ∧
    (sampledBase 100 100 ChargeState.full).state ≠ ChargeState.unknown ∧
    get_format (sampledBase 100 100 ChargeState.full) = FORMAT_FULL ∧
    FORMAT_FULL ≠ FORMAT_DISCHARGING := by
  refine ⟨?_, by simp [sampledBase, baseModule], by simp [sampledBase, baseModule],
    ?_, by decide⟩
  · simp +decide [onEvent, baseModule, sampledBase, pct_100, rawStateOf,
      normPercentage, normState, percentText]
  · simp [get_format, sampledBase, baseModule]

/-- C9 witness: status byte a two with capacity 50 keeps UNKNOWN and
the discharging format. -/
theorem claim9_witness :
    (sampledBase 100 50 ChargeState.unknown).state = ChargeState.unknown ∧
    get_format (sampledBase 100 50 ChargeState.unknown) = FORMAT_DISCHARGING :=
  claim9_thm.2 (baseModule 100) "2" "50" (sampledBase 100 50 ChargeState.unknown)
    c9_eval (by decide) (by decide) c9_pct

/-- C10: with both reads non-empty, a sample crashes (dereferences a
null template) exactly when at least one of the three label templates
is missing, whatever the current state; success therefore requires all
three templates to have been created at construction. -/
theorem claim10_thm (m : Module) (s c : String)
    (hs : s.isEmpty = false) (hc : c.isEmpty = false) :
    onEvent m s c = none ↔
      (m.label_charging = none ∨ m.label_discharging = none ∨ m.label_full = none) := by
  rcases hlc : m.label_charging with _ | lc <;>
    rcases hld : m.label_discharging with _ | ld <;>
      rcases hlf : m.label_full with _ | lf <;>
        simp [onEvent, hs, hc, hlc, hld, hlf]

/-- C10 witness: a module whose full label template is null crashes on
a successful-read sample. -/
theorem claim10_witness :
    onEvent { baseModule 100 with label_full := none } "1" "50" = none :=
  (claim10_thm { baseModule 100 with label_full := none } "1" "50"
    (by decide) (by decide)).mpr (Or.inr (Or.inr rfl))

end Battery
